import Mathlib

/-!
Verification of the statistics and signed-command code in
`simplecoin/utils.py` (simplecoin_multi).

Python strings are modelled as `List Char`; Python numeric values flowing
through the statistics code are modelled as `ℚ`; `datetime` values and
`timedelta`s are modelled as integer numbers of seconds.  Fallible Python
code is modelled with `Except PyErr`, where `PyErr` distinguishes the
module's own `CommandException` (with its message) from the builtin Python
exception classes that the code raises or catches.
-/

attribute [local semireducible] Rat.add Rat.mul Rat.inv Rat.sub

deriving instance DecidableEq for Except

namespace Simplecoin

/-- Python strings, modelled as lists of characters. -/
abbrev Str := List Char

/-- Convenience conversion from Lean string literals to the `Str` model. -/
def str (s : String) : Str := s.toList

/-- Model of Python `s.split(sep)` for a one-character separator: splits on
every occurrence of `sep`, keeping empty fields, so the result is always
nonempty (`"".split(sep) == [""]`). -/
def splitOnChar (sep : Char) : Str → List Str
  | [] => [[]]
  | c :: cs =>
    match splitOnChar sep cs with
    | [] => [[c]]
    | h :: t => if c = sep then [] :: h :: t else (c :: h) :: t

/-- Python string ordering (lexicographic by code point), as used by
`sorted(..., key=...)`. -/
def strLe : Str → Str → Bool
  | [], _ => true
  | _ :: _, [] => false
  | a :: as, b :: bs => if a = b then strLe as bs else decide (a < b)

/-- Exceptions raised (or caught) by the code under verification:
`CommandException` carries its message; the others are the relevant Python
builtin / library exception classes. -/
inductive PyErr where
  | command (msg : String)
  | typeError
  | invalidOperation
  | indexError
  | valueError
  deriving DecidableEq

/-- Python list subscription `l[i]`, raising `IndexError` when out of range. -/
def pyIdx (l : List Str) (i : Nat) : Except PyErr Str :=
  match l[i]? with
  | some x => .ok x
  | none => .error .indexError

/-- Python values that can sit in `update_dict` slots: the `SETDONATE` slot
starts as the int `0` and the `MAKEANON` slot as the bool `False`, and both
are overwritten with strings by the message parser. -/
inductive PyVal where
  | int (n : Int)
  | str (s : Str)
  | bool (b : Bool)
  deriving DecidableEq

/-! ## Model of the `decimal.Decimal` values used by the donation check -/

/-- Numeric value of a nonempty digit string. -/
def digitsVal (l : Str) : Nat := l.foldl (fun a c => a * 10 + (c.toNat - 48)) 0

/-- Model of parsing the fixed-point fragment of the `decimal.Decimal`
string grammar: an optional sign, then digits with at most one decimal
point and at least one digit (`"200"`, `"-1"`, `"0.05"`, `".5"`, `"1."`).
Exponents and the special values NaN/Infinity are outside the fragment the
donation messages use and are not modelled.  Returns `none` exactly when
`Decimal(s)` would raise `decimal.InvalidOperation`. -/
def parseDecimal (s : Str) : Option ℚ :=
  let (sgn, rest) : ℚ × Str :=
    match s with
    | '+' :: cs => (1, cs)
    | '-' :: cs => (-1, cs)
    | cs => (1, cs)
  match splitOnChar '.' rest with
  | [ip] =>
    if ip ≠ [] ∧ ip.all Char.isDigit then some (sgn * (digitsVal ip : ℚ)) else none
  | [ip, fp] =>
    if ip ++ fp ≠ [] ∧ ip.all Char.isDigit ∧ fp.all Char.isDigit then
      some (sgn * ((digitsVal ip : ℚ) + (digitsVal fp : ℚ) / (10 : ℚ) ^ fp.length))
    else none
  | _ => none

/-- Floor of a rational (numerator floor-divided by denominator). -/
def ratFloor (q : ℚ) : Int := q.num.fdiv q.den

/-- Banker's rounding (round half to even) of a rational to an integer, the
default rounding mode of `decimal`. -/
def roundHalfEven (q : ℚ) : Int :=
  let fl := ratFloor q
  let frac := q - (fl : ℚ)
  if frac < 1 / 2 then fl
  else if 1 / 2 < frac then fl + 1
  else if fl % 2 = 0 then fl else fl + 1

/-- Model of `Decimal(x).quantize(Decimal('0.01'))`: round to two decimal
places, half to even. -/
def quantize001 (q : ℚ) : ℚ := (roundHalfEven (q * 100) : ℚ) / 100

/-- Model of the `Decimal` constructor applied to the values the message
pipeline can feed it: ints and bools convert exactly; a string parses via
`parseDecimal` and raises `decimal.InvalidOperation` when unparseable.
(`TypeError` is raised by `Decimal` only for arguments of other types,
such as `float` on Python 2, which cannot occur here.) -/
def pyDecimal : PyVal → Except PyErr ℚ
  | .int n => .ok (n : ℚ)
  | .bool b => .ok (if b then 1 else 0)
  | .str s =>
    match parseDecimal s with
    | some q => .ok q
    | none => .error .invalidOperation

/-! ## Python `timedelta` seconds and the message-expiry check -/

/-- Model of `timedelta.seconds` for a timedelta of `total` seconds: Python
normalises a timedelta into days plus a seconds field in `[0, 86400)`, so
the `seconds` attribute equals the total floor-modulo one day. -/
def tdSeconds (total : Int) : Int := total.emod 86400

/-- The expiry test of `verify_message` (line 459 of utils.py):
`abs((now - stamp).seconds) > expiry`. -/
def message_expired (now stamp expiry : Int) : Bool :=
  |tdSeconds (now - stamp)| > expiry

/-! ## Pool-level statistics -/

/-- Model of `shares_to_hashes`: multiply by the configured
`hashes_per_share`, which defaults to 65536 when not configured. -/
def shares_to_hashes (hashes_per_share : Option ℚ) (shares : ℚ) : ℚ :=
  hashes_per_share.getD 65536 * shares

/-- One `OneMinuteShare` row for the `"pool"` user: a timestamp (seconds)
and a share value. -/
structure PoolShare where
  time : Int
  value : ℚ
  deriving DecidableEq

/-- Model of `get_pool_hashrate`: sum the pool's one-minute share values
with timestamp between twelve and two minutes ago (both bounds inclusive,
mirroring the `>=`/`<=` query filters) and divide by 600000. -/
def get_pool_hashrate (recs : List PoolShare) (now : Int) : ℚ :=
  let twelve_ago := now - 720
  let two_ago := now - 120
  let ten_min := recs.filter (fun m => decide (twelve_ago ≤ m.time ∧ m.time ≤ two_ago))
  let total := (ten_min.map (fun m => m.value)).sum
  total / 600000

/-- Stated from the spec, for comparison with `get_pool_hashrate`: the
per-user hash-rate formula `shares_to_hashes(last10Shares) / 1e6 / 600`
over the half-open window `[now-12min, now-2min)`. -/
def spec_pool_hashrate (hashes_per_share : Option ℚ) (recs : List PoolShare) (now : Int) : ℚ :=
  let last10 := (recs.filter (fun m => decide (now - 720 ≤ m.time ∧ m.time < now - 120))).map
    (fun m => m.value)
  shares_to_hashes hashes_per_share last10.sum / 1000000 / 600

/-- Model of `get_pool_eff`: `get_pool_acc_rej` hands back the reject and
accept totals; the efficiency is 100 when both are falsy (zero), else
`(acc / (acc + rej)) * 100`. -/
def get_pool_eff (rej acc : ℚ) : ℚ :=
  if rej = 0 ∧ acc = 0 then 100 else acc / (acc + rej) * 100

/-! ## `compress_typ` -/

/-- One time slice handed back by `get_typ`, carrying both the `device`
and the `worker` column (the branch taken selects which one keys the
aggregation). -/
structure Slc where
  device : Str
  worker : Str
  time : Int
  value : ℚ
  deriving DecidableEq

/-- The dict-of-dicts `workers` mapping of `compress_typ`, modelled as a
total map with absent buckets read as 0; `setdefault(stamp, 0)` followed by
`+= value` is exactly a pointwise addition at one key/stamp pair. -/
def bump (m : Str → Int → ℚ) (k : Str) (s : Int) (v : ℚ) : Str → Int → ℚ :=
  fun k2 s2 => if k2 = k ∧ s2 = s then m k2 s2 + v else m k2 s2

/-- Model of `compress_typ`: for each slice, when a `worker` argument was
given the slice is keyed by its `device` column and the slice type's own
`floor_time`, otherwise by its `worker` column and the coarser
(`typ.upper`) `floor_time`; `calendar.timegm ∘ floor_time` is modelled as
one abstract `Int → Int` per granularity (`floor_self` / `floor_upper`). -/
def compress_typ (floor_self floor_upper : Int → Int) (worker : Option Str)
    (slcs : List Slc) (workers : Str → Int → ℚ) : Str → Int → ℚ :=
  slcs.foldl (fun m slc =>
    match worker with
    | some _ => bump m slc.device (floor_self slc.time) slc.value
    | none => bump m slc.worker (floor_upper slc.time) slc.value) workers

/-- The bucket key `compress_typ` files a slice under. -/
def slcKey (floor_self floor_upper : Int → Int) (worker : Option Str) (slc : Slc) :
    Str × Int :=
  match worker with
  | some _ => (slc.device, floor_self slc.time)
  | none => (slc.worker, floor_upper slc.time)

/-- One `compress_typ` loop iteration for a fixed bucket-key function. -/
def bumpStep (keyf : Slc → Str × Int) (m : Str → Int → ℚ) (slc : Slc) : Str → Int → ℚ :=
  bump m (keyf slc).1 (keyf slc).2 slc.value

/-! ## `collect_user_stats` worker aggregation -/

/-- One share or reject row (`FiveMinuteShare`, `OneMinuteShare`,
`FiveMinuteReject` or `OneMinuteReject`) for one user. -/
structure Rec where
  worker : Str
  time : Int
  value : ℚ
  deriving DecidableEq

/-- One entry of the `workers` dict of `collect_user_stats`; the field
defaults are the `def_worker` template (`efficiency`, `last_10_hashrate`
and `name` are added later, modelled as pre-existing fields). -/
structure WorkerData where
  accepted : ℚ := 0
  rejected : ℚ := 0
  last_10_shares : ℚ := 0
  online : Bool := false
  server : Option Str := none
  last_10_hashrate : ℚ := 0
  efficiency : Option ℚ := none
  name : Str := []
  deriving DecidableEq

/-- `workers.setdefault(k, def_worker.copy())` followed by a mutation of
`workers[k]`, on an insertion-ordered association list. -/
def wupd (ws : List (Str × WorkerData)) (k : Str) (f : WorkerData → WorkerData) :
    List (Str × WorkerData) :=
  if ws.any (fun p => decide (p.1 = k)) then
    ws.map (fun p => if p.1 = k then (p.1, f p.2) else p)
  else ws ++ [(k, f {})]

/-- The per-worker derivation step of `collect_user_stats` (lines 305-310):
attach `last_10_hashrate`, then set `efficiency` to
`100.0 * accepted / (accepted + rejected)` when `accepted or rejected` is
truthy and to `None` otherwise. -/
def finalizeWorker (hashes_per_share : Option ℚ) (w : WorkerData) : WorkerData :=
  let w := { w with
    last_10_hashrate := shares_to_hashes hashes_per_share w.last_10_shares / 1000000 / 600 }
  if w.accepted ≠ 0 ∨ w.rejected ≠ 0 then
    { w with efficiency := some (100 * (w.accepted / (w.accepted + w.rejected))) }
  else
    { w with efficiency := none }

/-- Stable insertion of a worker into a name-sorted list, after any worker
whose name is not greater. -/
def insertByName (w : WorkerData) : List WorkerData → List WorkerData
  | [] => [w]
  | x :: xs => if strLe x.name w.name then x :: insertByName w xs else w :: x :: xs

/-- Model of `sorted(new_workers, key=lambda x: x['name'])`. -/
def sortByName (l : List WorkerData) : List WorkerData :=
  l.foldl (fun acc w => insertByName w acc) []

/-- Model of the worker-statistics part of `collect_user_stats`: accumulate
accepted share values (tracking the `[now-12min, now-2min)` window into
`last_10_shares`), then rejected values, then merge the cached online feed
(`server` looked up in `monitor_addrs`, defaulting to the empty string),
then derive hashrate and efficiency per worker, attach names and sort by
name.  The record lists stand for the chained `get_typ` query results and
`online` for the `addr_online_<address>` cache entry. -/
def collect_user_stats (hashes_per_share : Option ℚ) (monitor : Str → Option Str)
    (now : Int) (accepts rejects : List Rec) (online : List (Str × Str)) :
    List WorkerData :=
  let twelve_ago := now - 720
  let two_ago := now - 120
  let ws : List (Str × WorkerData) := []
  let ws := accepts.foldl (fun ws m =>
    wupd ws m.worker (fun w =>
      let w := { w with accepted := w.accepted + m.value }
      if twelve_ago ≤ m.time ∧ m.time < two_ago then
        { w with last_10_shares := w.last_10_shares + m.value }
      else w)) ws
  let ws := rejects.foldl (fun ws m =>
    wupd ws m.worker (fun w => { w with rejected := w.rejected + m.value })) ws
  let ws := online.foldl (fun ws p =>
    wupd ws p.1 (fun w => { w with online := true, server := some ((monitor p.2).getD []) })) ws
  let ws := ws.map (fun p => (p.1, finalizeWorker hashes_per_share p.2))
  sortByName (ws.map (fun p => { p.2 with name := p.1 }))

/-! ## `validate_message_vals` -/

/-- Message of the `CommandException` for a bad `SETADDR` address. -/
def addr_error_msg : String := "Invalid currency address passed!"

/-- Message of the `CommandException` for a donation value `Decimal`
refuses with a `TypeError`. -/
def donate_convert_msg : String :=
  "Donate percentage unable to be converted to python Decimal!"

/-- Message of the `CommandException` for an out-of-bounds donation. -/
def donate_bounds_msg : String := "Donate percentage was out of bounds!"

/-- The `for curr, addr in set_addrs.iteritems()` loop of
`validate_message_vals`: `check_valid_currency` is not part of this module
(it is referenced but defined nowhere under `simplecoin/`), so it is
modelled from the spec as an abstract currency-specific checksum/format
check returning a currency on success and `False` (here `none`) on
failure.  An address is rejected when its length is not 34 or the check
fails. -/
def check_addrs (check_valid_currency : Str → Option Unit) :
    List (Str × Str) → Option PyErr
  | [] => none
  | (_, addr) :: rest =>
    let curr := check_valid_currency addr
    if addr.length ≠ 34 ∨ curr = none then some (.command addr_error_msg)
    else check_addrs check_valid_currency rest

/-- The `update_dict` keyword arguments of `validate_message_vals`:
`SETADDR` is an insertion-ordered dict currency → address, `DELADDR` a
list, and the `SETDONATE` / `MAKEANON` slots hold their initial int/bool
or the parsed string. -/
structure MsgVals where
  set_addrs : List (Str × Str) := []
  del_addrs : List Str := []
  donate_perc : PyVal := .int 0
  anon : PyVal := .bool false
  deriving DecidableEq

/-- Model of `validate_message_vals`: validate every `SETADDR` entry, then
convert the donation value with `Decimal(...).quantize(Decimal('0.01')) / 100`
— where only a `TypeError` is converted into a `CommandException`, so the
`InvalidOperation` an unparseable string raises escapes — and reject the
converted fraction when it is `> 100.0 or < 0`. -/
def validate_message_vals (check_valid_currency : Str → Option Unit) (kwargs : MsgVals) :
    Except PyErr (List (Str × Str) × List Str × ℚ × PyVal) :=
  match check_addrs check_valid_currency kwargs.set_addrs with
  | some e => .error e
  | none =>
    match pyDecimal kwargs.donate_perc with
    | .error .typeError => .error (.command donate_convert_msg)
    | .error e => .error e
    | .ok d =>
      let donate_perc := quantize001 d / 100
      if donate_perc > 100 ∨ donate_perc < 0 then .error (.command donate_bounds_msg)
      else .ok (kwargs.set_addrs, kwargs.del_addrs, donate_perc, kwargs.anon)

/-! ## `verify_message` -/

/-- Message of the `CommandException` for an unknown command token. -/
def invalid_command_msg : String :=
  "Invalid command given! Generate a new message & try again."

/-- Message of the `CommandException` raised when the parse loop hits an
`IndexError` or `ValueError`. -/
def invalid_info_msg : String :=
  "Invalid information provided in the message field. This could be the fault of the bug with IE11, or the generated message has an error"

/-- Message of the `CommandException` for a message without a timestamp. -/
def no_stamp_msg : String :=
  "Time stamp not found in message! Generate a new message & try again."

/-- Message of the `CommandException` for an expired message. -/
def expired_msg : String :=
  "Signature/Message is too old to be accepted! Generate a new message & try again."

/-- Message of the `CommandException` for a missing or mismatched site. -/
def site_msg : String := "Invalid website! Generate a new message & try again."

/-- Message of the `CommandException` when the coinserver cannot be
reached. -/
def comm_error_msg : String := "Unable to communicate with coinserver!"

/-- Message of the `CommandException` for a false oracle verdict
(`"Invalid signature! Coinserver returned {}".format(res)` with
`res = False`). -/
def invalid_sig_msg : String := "Invalid signature! Coinserver returned False"

/-- Message of the `CommandException` when saving the settings fails. -/
def save_error_msg : String := "Error saving new settings to the database!"

/-- Parser state threaded through the line loop of `verify_message`:
the `update_dict` under construction plus the `stamp` and `site`
variables, which start out as `False` (here `none`). -/
structure ParseState where
  update_dict : MsgVals := {}
  stamp : Option Int := none
  site : Option Str := none
  deriving DecidableEq

/-- Python dict assignment `d[k] = v` on an insertion-ordered association
list: overwrite the existing entry or append a new one. -/
def dictInsert (d : List (Str × Str)) (k v : Str) : List (Str × Str) :=
  if d.any (fun p => decide (p.1 = k)) then
    d.map (fun p => if p.1 = k then (k, v) else p)
  else d ++ [(k, v)]

/-- One iteration of the line loop of `verify_message`: split the line on
spaces and dispatch on the first token; `parts[0]` always exists because
`split` never returns an empty list, while deeper subscripts can raise
`IndexError` and `strptime` (modelled by the abstract `parse_time`, `none`
for a `ValueError`) can fail. -/
def processLine (parse_time : Str → Option Int) (st : ParseState) (line : Str) :
    Except PyErr ParseState :=
  let parts := splitOnChar ' ' line
  let p0 := parts.headD []
  if p0 = str "SETADDR" then do
    let k ← pyIdx parts 1
    let v ← pyIdx parts 2
    pure { st with update_dict :=
      { st.update_dict with set_addrs := dictInsert st.update_dict.set_addrs k v } }
  else if p0 = str "DELADDR" then do
    let k ← pyIdx parts 1
    pure { st with update_dict :=
      { st.update_dict with del_addrs := st.update_dict.del_addrs ++ [k] } }
  else if p0 = str "MAKEANON" then do
    let v ← pyIdx parts 1
    pure { st with update_dict := { st.update_dict with anon := .str v } }
  else if p0 = str "SETDONATE" then do
    let v ← pyIdx parts 1
    pure { st with update_dict := { st.update_dict with donate_perc := .str v } }
  else if p0 = str "Only" then do
    let s ← pyIdx parts 3
    pure { st with site := some s }
  else if p0 = str "Generated" then do
    let a ← pyIdx parts 2
    let b ← pyIdx parts 3
    let c ← pyIdx parts 4
    match parse_time (a ++ [' '] ++ b ++ [' '] ++ c) with
    | some t => pure { st with stamp := some t }
    | none => .error .valueError
  else .error (.command invalid_command_msg)

/-- The `try` block of `verify_message`: split the message on tabs and run
the line loop; an `IndexError` or `ValueError` is caught and replaced by
the `CommandException` with `invalid_info_msg`, while the
`CommandException` for an unknown command propagates. -/
def parse_message (parse_time : Str → Option Int) (message : Str) :
    Except PyErr ParseState :=
  match (splitOnChar '\t' message).foldlM (processLine parse_time) {} with
  | .error .indexError => .error (.command invalid_info_msg)
  | .error .valueError => .error (.command invalid_info_msg)
  | r => r

/-- The configuration values `verify_message` reads: the mandatory
`site_title`, and `message_expiry` with `config.get` default 90660. -/
structure Config where
  site_title : Str
  message_expiry : Option Int := none

/-- The stages of `verify_message` before the oracle call: parse, require
a timestamp, require freshness, require the site token to be truthy and
equal to the configured site title. -/
def preCheck (cfg : Config) (parse_time : Str → Option Int) (now : Int) (message : Str) :
    Except PyErr MsgVals :=
  match parse_message parse_time message with
  | .error e => .error e
  | .ok ps =>
    match ps.stamp with
    | none => .error (.command no_stamp_msg)
    | some stamp =>
      if message_expired now stamp (cfg.message_expiry.getD 90660) then
        .error (.command expired_msg)
      else
        match ps.site with
        | none => .error (.command site_msg)
        | some s =>
          if s = [] ∨ s ≠ cfg.site_title then .error (.command site_msg)
          else .ok ps.update_dict

/-- Outcome of the `coinserv.verifymessage` RPC call: a boolean verdict, a
`CoinRPCException` carrying a reason, or any other communication fault. -/
inductive RpcResult where
  | ok (res : Bool)
  | rpcError (reason : String)
  | commFailure
  deriving DecidableEq

/-- Modelled from the spec: one `UserSettings` row (the settings the
commit writes for the proven address) — `models.py` is not part of the
sources, and spec §3 describes the row as the validated command fields. -/
structure SettingsRow where
  set_addrs : List (Str × Str)
  del_addrs : List Str
  donate_perc : ℚ
  anon : PyVal
  deriving DecidableEq

/-- The persisted `UserSettings` table, keyed by user address. -/
abbrev SettingsDB := List (Str × SettingsRow)

/-- Modelled from the spec: `UserSettings.update(address, *args)` followed
by `db.session.commit()` — an atomic write of the full row for one
address (spec §5: all fields of one user's settings updated together). -/
def settings_update (db : SettingsDB) (address : Str) (row : SettingsRow) : SettingsDB :=
  if db.any (fun p => decide (p.1 = address)) then
    db.map (fun p => if p.1 = address then (address, row) else p)
  else db ++ [(address, row)]

/-- Model of `verify_message`, returning the raised exception (`none` on
success) together with the resulting `UserSettings` state.  `parse_time`
stands for `datetime.strptime`, `oracle` for the coinserver RPC verdict on
this message, and `update_raises` for `UserSettings.update` /
`db.session.commit` raising an `SQLAlchemyError` (in which case the
session is rolled back, leaving the persisted state unchanged). -/
def verify_message (cfg : Config) (parse_time : Str → Option Int)
    (check_valid_currency : Str → Option Unit) (now : Int) (oracle : RpcResult)
    (update_raises : Bool) (address : Str) (message : Str) (db : SettingsDB) :
    Option PyErr × SettingsDB :=
  match preCheck cfg parse_time now message with
  | .error e => (some e, db)
  | .ok update_dict =>
    match oracle with
    | .rpcError reason =>
      (some (.command ("Rejected by RPC server for reason " ++ reason ++ "!")), db)
    | .commFailure => (some (.command comm_error_msg), db)
    | .ok res =>
      if res then
        match validate_message_vals check_valid_currency update_dict with
        | .error e => (some e, db)
        | .ok (sa, da, dp, anon) =>
          if update_raises then (some (.command save_error_msg), db)
          else (none, settings_update db address ⟨sa, da, dp, anon⟩)
      else (some (.command invalid_sig_msg), db)

/-- Abbreviation for "this `Except` is a success". -/
def exceptOk {ε α : Type} : Except ε α → Bool
  | .ok _ => true
  | .error _ => false

/-! ## Theorems -/

/-- C1: the claim says a message whose timestamp is more than the
configured max age (default 90660 s) in the past — e.g. 26 hours old — is
rejected as expired.  The code computes `abs((now - stamp).seconds)`,
i.e. only the within-day component of the age, which is always below
86400, so with the default limit 90660 the expiry branch can never fire:
the check is `false` for every `now` and `stamp`, and concretely a message
time-stamped 26 hours (93600 s) before `now` passes all the pre-oracle
checks. -/
theorem expiry_check_never_fires :
    (∀ now stamp : Int, message_expired now stamp 90660 = false) ∧
    exceptOk (preCheck ⟨str "S", none⟩ (fun _ => some 0) 93600
      (str "Generated at 2014-01-01 00:00:00.000000 UTC\tOnly valid on S")) = true := by
  constructor
  · intro now stamp
    simp only [message_expired, tdSeconds, decide_eq_false_iff_not, not_lt]
    have h0 : (0 : Int) ≤ (now - stamp).emod 86400 := Int.emod_nonneg _ (by decide)
    have h1 : (now - stamp).emod 86400 < 86400 := Int.emod_lt_of_pos _ (by decide)
    rw [abs_of_nonneg h0]
    omega
  · decide

/-- C3: donation bounds.  `validate_message_vals` accepts the boundary
percents 0 and 100 (fractions 0 and 1), but it compares the already
divided fraction against `100.0`, so the fraction 2 produced by
`SETDONATE 200` — outside `[0, 1]` — is accepted instead of rejected as
out of bounds; only fractions above 100 or below 0 are rejected. -/
theorem donate_bounds_check_misses_200 :
    validate_message_vals (fun _ => none) { donate_perc := .str (str "200") } =
      .ok ([], [], 2, .bool false) ∧
    ¬ ((2 : ℚ) ≤ 1) ∧
    validate_message_vals (fun _ => none) { donate_perc := .str (str "0") } =
      .ok ([], [], 0, .bool false) ∧
    validate_message_vals (fun _ => none) { donate_perc := .str (str "100") } =
      .ok ([], [], 1, .bool false) ∧
    validate_message_vals (fun _ => none) { donate_perc := .str (str "-1") } =
      .error (.command donate_bounds_msg) :=
  ⟨by decide, by decide, by decide, by decide, by decide⟩

/-- C5: an unparseable `SETDONATE` value.  The parser stores the raw
string, `Decimal("abc")` raises `decimal.InvalidOperation`, and the
`except TypeError` handler does not catch it, so the escaping exception is
`InvalidOperation` — not the `CommandException` the claim describes. -/
theorem donate_unparseable_escapes :
    validate_message_vals (fun _ => none) { donate_perc := .str (str "abc") } =
      .error .invalidOperation ∧
    ∀ msg : String, PyErr.invalidOperation ≠ PyErr.command msg :=
  ⟨by decide, fun _ h => PyErr.noConfusion h⟩

/-- C6 counterexample: `get_pool_hashrate` does not compute
`shares_to_hashes(last10Shares) / 1e6 / 600` like the per-user case.  On a
single pool share of value 600000 five minutes before `now = 720` the code
returns 1 (it divides the raw share sum by 600000) while the per-user
formula gives 65536·600000/1e6/600 = 8192/125. -/
theorem get_pool_hashrate_counterexample :
    get_pool_hashrate [⟨300, 600000⟩] 720 ≠ spec_pool_hashrate none [⟨300, 600000⟩] 720 ∧
    get_pool_hashrate [⟨300, 600000⟩] 720 = 1 ∧
    spec_pool_hashrate none [⟨300, 600000⟩] 720 = 8192 / 125 :=
  ⟨by decide, by decide, by decide⟩

/-- C6 amended: `get_pool_hashrate` equals the sum of the pool's one-minute
share values with timestamp in the closed window `[now-12min, now-2min]`
divided by 600000 (600 seconds times 1000 for khash/s); `shares_to_hashes`
is not applied. -/
theorem get_pool_hashrate_amended (recs : List PoolShare) (now : Int) :
    get_pool_hashrate recs now =
      ((recs.filter (fun m => decide (now - 720 ≤ m.time ∧ m.time ≤ now - 120))).map
        (fun m => m.value)).sum / 600000 := rfl

/-- C7: `get_pool_eff` returns exactly 100 when the accepted and rejected
totals are both zero, and `100 · acc / (acc + rej)` otherwise. -/
theorem get_pool_eff_spec :
    get_pool_eff 0 0 = 100 ∧
    ∀ rej acc : ℚ, ¬ (rej = 0 ∧ acc = 0) →
      get_pool_eff rej acc = 100 * acc / (acc + rej) := by
  constructor
  · decide
  · intro rej acc h
    unfold get_pool_eff
    rw [if_neg h]
    ring

/-- Witness for C7 at the totals `rej = 1`, `acc = 3`. -/
theorem get_pool_eff_spec_witness :
    get_pool_eff 0 0 = 100 ∧ get_pool_eff 1 3 = 100 * 3 / (3 + 1) :=
  ⟨get_pool_eff_spec.1, get_pool_eff_spec.2 1 3 (by decide)⟩

/-- Two `compress_typ` iterations with a fixed key function commute. -/
theorem bumpStep_comm (keyf : Slc → Str × Int) (m : Str → Int → ℚ) (a b : Slc) :
    bumpStep keyf (bumpStep keyf m a) b = bumpStep keyf (bumpStep keyf m b) a := by
  funext k s
  simp only [bumpStep, bump]
  split_ifs <;> ring

/-- Folding `compress_typ` iterations over permuted slice lists gives the
same mapping. -/
theorem foldl_bumpStep_perm (keyf : Slc → Str × Int) {l₁ l₂ : List Slc}
    (h : l₁.Perm l₂) : ∀ m : Str → Int → ℚ,
    l₁.foldl (bumpStep keyf) m = l₂.foldl (bumpStep keyf) m := by
  induction h with
  | nil => intro m; rfl
  | cons x _ ih => intro m; simp only [List.foldl_cons]; exact ih _
  | swap x y l => intro m; simp only [List.foldl_cons]; rw [bumpStep_comm]
  | trans _ _ ih₁ ih₂ => intro m; exact (ih₁ m).trans (ih₂ m)

/-- Folding `compress_typ` iterations adds, per key, exactly the sum of
the matching slice values on top of the initial mapping. -/
theorem foldl_bumpStep_sum (keyf : Slc → Str × Int) (l : List Slc) :
    ∀ (m : Str → Int → ℚ) (k : Str) (s : Int),
      l.foldl (bumpStep keyf) m k s =
        m k s + ((l.filter (fun slc => decide (keyf slc = (k, s)))).map
          (fun slc => slc.value)).sum := by
  induction l with
  | nil => intro m k s; simp
  | cons a l ih =>
    intro m k s
    simp only [List.foldl_cons, List.filter_cons]
    rw [ih]
    by_cases h : keyf a = (k, s)
    · simp only [bumpStep, bump, h, and_self, if_true, decide_True, List.map_cons,
        List.sum_cons, if_pos trivial]
      ring
    · have hc : ¬ (k = (keyf a).1 ∧ s = (keyf a).2) := by
        rintro ⟨h1, h2⟩
        exact h (Prod.ext h1.symm h2.symm)
      simp [bumpStep, bump, h, hc]

/-- C9: `compress_typ` is purely additive and order-independent — in both
branches (per-device with its own floor, per-worker with the coarser
type's floor) summing the same slices in any order yields the same
mapping, and each bucket of the result is the initial bucket value plus
the sum of the values of the slices keyed to it (so existing totals are
added to, never overwritten). -/
theorem compress_typ_additive (floor_self floor_upper : Int → Int)
    (worker : Option Str) (m : Str → Int → ℚ) :
    (∀ l₁ l₂ : List Slc, l₁.Perm l₂ →
      compress_typ floor_self floor_upper worker l₁ m =
        compress_typ floor_self floor_upper worker l₂ m) ∧
    ∀ (l : List Slc) (k : Str) (s : Int),
      compress_typ floor_self floor_upper worker l m k s =
        m k s + ((l.filter (fun slc =>
          decide (slcKey floor_self floor_upper worker slc = (k, s)))).map
          (fun slc => slc.value)).sum := by
  cases worker with
  | none =>
    exact ⟨fun l₁ l₂ h => foldl_bumpStep_perm
        (fun slc => (slc.worker, floor_upper slc.time)) h m,
      fun l k s => foldl_bumpStep_sum
        (fun slc => (slc.worker, floor_upper slc.time)) l m k s⟩
  | some w =>
    exact ⟨fun l₁ l₂ h => foldl_bumpStep_perm
        (fun slc => (slc.device, floor_self slc.time)) h m,
      fun l k s => foldl_bumpStep_sum
        (fun slc => (slc.device, floor_self slc.time)) l m k s⟩

/-- Witness for C9: swapping two concrete slices leaves the compressed
mapping unchanged. -/
theorem compress_typ_additive_witness :
    compress_typ (fun t => t) (fun t => t) none
        [⟨str "d1", str "w1", 0, 1⟩, ⟨str "d2", str "w2", 5, 2⟩] (fun _ _ => 0) =
      compress_typ (fun t => t) (fun t => t) none
        [⟨str "d2", str "w2", 5, 2⟩, ⟨str "d1", str "w1", 0, 1⟩] (fun _ _ => 0) :=
  (compress_typ_additive (fun t => t) (fun t => t) none (fun _ _ => 0)).1 _ _
    (List.Perm.swap _ _ _)

/-- The `Decimal` constructor fails only with `TypeError` or
`InvalidOperation`. -/
theorem pyDecimal_error_range {v : PyVal} {e : PyErr} (h : pyDecimal v = .error e) :
    e = .typeError ∨ e = .invalidOperation := by
  cases v with
  | int n => exact absurd h (by simp [pyDecimal])
  | bool b => exact absurd h (by simp [pyDecimal])
  | str s =>
    cases hp : parseDecimal s with
    | some q => simp [pyDecimal, hp] at h
    | none =>
      simp only [pyDecimal, hp, Except.error.injEq] at h
      exact Or.inr h.symm

/-- The `SETADDR` loop raises exactly when some entry has a wrong-length
address or one failing the currency check, and its exception is always
the invalid-address `CommandException`. -/
theorem check_addrs_some_iff (check_valid_currency : Str → Option Unit)
    (l : List (Str × Str)) :
    check_addrs check_valid_currency l = some (.command addr_error_msg) ↔
      ∃ p ∈ l, p.2.length ≠ 34 ∨ check_valid_currency p.2 = none := by
  induction l with
  | nil => simp [check_addrs]
  | cons a l ih =>
    obtain ⟨c, addr⟩ := a
    simp only [check_addrs]
    by_cases h : addr.length ≠ 34 ∨ check_valid_currency addr = none
    · simp [h]
    · simp [h, ih]

/-- The `SETADDR` loop either passes or raises the invalid-address
`CommandException`. -/
theorem check_addrs_none_or (check_valid_currency : Str → Option Unit)
    (l : List (Str × Str)) :
    check_addrs check_valid_currency l = none ∨
      check_addrs check_valid_currency l = some (.command addr_error_msg) := by
  induction l with
  | nil => exact Or.inl rfl
  | cons a l ih =>
    obtain ⟨c, addr⟩ := a
    simp only [check_addrs]
    by_cases h : addr.length ≠ 34 ∨ check_valid_currency addr = none
    · simp [h]
    · simp [h, ih]

/-- C4: `validate_message_vals` raises the invalid-address
`CommandException` exactly when some `SETADDR` entry has an address whose
length is not 34 (regardless of the checksum result) or a 34-character
address failing the currency-specific check (`check_valid_currency`,
absent from the sources, is modelled from the spec as an abstract
checksum/format check); when every entry passes both, no invalid-address
error is raised. -/
theorem validate_message_vals_addr_check (check_valid_currency : Str → Option Unit)
    (kwargs : MsgVals) :
    validate_message_vals check_valid_currency kwargs =
        .error (.command addr_error_msg) ↔
      ∃ p ∈ kwargs.set_addrs, p.2.length ≠ 34 ∨ check_valid_currency p.2 = none := by
  rw [← check_addrs_some_iff]
  unfold validate_message_vals
  rcases check_addrs_none_or check_valid_currency kwargs.set_addrs with h | h <;> rw [h]
  · rw [iff_false_intro (by simp : ¬ (none = some (PyErr.command addr_error_msg)))]
    simp only [iff_false]
    intro hx
    cases hpd : pyDecimal kwargs.donate_perc with
    | error e =>
      rw [hpd] at hx
      rcases pyDecimal_error_range hpd with rfl | rfl
      · simp only [Except.error.injEq, PyErr.command.injEq] at hx
        exact absurd hx (by decide)
      · simp at hx
    | ok d =>
      simp only [hpd] at hx
      split at hx
      · simp only [Except.error.injEq, PyErr.command.injEq] at hx
        exact absurd hx (by decide)
      · simp at hx
  · simp

/-- Membership is preserved by sorted insertion. -/
theorem mem_insertByName {w a : WorkerData} : ∀ {l : List WorkerData},
    a ∈ insertByName w l ↔ a = w ∨ a ∈ l := by
  intro l
  induction l with
  | nil => simp [insertByName]
  | cons x xs ih =>
    simp only [insertByName]
    split
    · simp only [List.mem_cons, ih]
      tauto
    · simp only [List.mem_cons]

/-- Membership is preserved by the insertion-sort fold. -/
theorem mem_sortByName_aux :
    ∀ (l acc : List WorkerData) (a : WorkerData),
      a ∈ l.foldl (fun acc w => insertByName w acc) acc ↔ a ∈ acc ∨ a ∈ l := by
  intro l
  induction l with
  | nil => simp
  | cons x xs ih =>
    intro acc a
    simp only [List.foldl_cons]
    rw [ih, mem_insertByName]
    simp only [List.mem_cons]
    tauto

/-- Membership is preserved by `sortByName`. -/
theorem mem_sortByName {a : WorkerData} {l : List WorkerData} :
    a ∈ sortByName l ↔ a ∈ l := by
  unfold sortByName
  rw [mem_sortByName_aux]
  simp

/-- The per-worker derivation step keeps the accepted and rejected totals
and sets `efficiency` from them. -/
theorem finalizeWorker_fields (hashes_per_share : Option ℚ) (w : WorkerData) :
    (finalizeWorker hashes_per_share w).accepted = w.accepted ∧
    (finalizeWorker hashes_per_share w).rejected = w.rejected ∧
    (finalizeWorker hashes_per_share w).efficiency =
      (if w.accepted ≠ 0 ∨ w.rejected ≠ 0 then
        some (100 * (w.accepted / (w.accepted + w.rejected))) else none) := by
  unfold finalizeWorker
  split <;> simp_all

/-- Every worker reported by `collect_user_stats` is a finalized worker
entry with its dict key attached as `name`. -/
theorem collect_user_stats_mem {hashes_per_share : Option ℚ}
    {monitor : Str → Option Str} {now : Int} {accepts rejects : List Rec}
    {online : List (Str × Str)} {w : WorkerData}
    (hw : w ∈ collect_user_stats hashes_per_share monitor now accepts rejects online) :
    ∃ (n : Str) (v : WorkerData), w = { finalizeWorker hashes_per_share v with name := n } := by
  unfold collect_user_stats at hw
  rw [mem_sortByName] at hw
  simp only [List.mem_map] at hw
  obtain ⟨p, hp, rfl⟩ := hw
  obtain ⟨q, hq, rfl⟩ := hp
  exact ⟨q.1, q.2, rfl⟩

/-- C8: every worker reported by `collect_user_stats` has an absent
(`None`) efficiency when its accepted and rejected totals are both zero,
and efficiency `100 · accepted / (accepted + rejected)` when either total
is nonzero. -/
theorem collect_user_stats_efficiency (hashes_per_share : Option ℚ)
    (monitor : Str → Option Str) (now : Int) (accepts rejects : List Rec)
    (online : List (Str × Str)) :
    ∀ w ∈ collect_user_stats hashes_per_share monitor now accepts rejects online,
      (w.accepted = 0 ∧ w.rejected = 0 → w.efficiency = none) ∧
      ((w.accepted ≠ 0 ∨ w.rejected ≠ 0) →
        w.efficiency = some (100 * w.accepted / (w.accepted + w.rejected))) := by
  intro w hw
  obtain ⟨n, v, rfl⟩ := collect_user_stats_mem hw
  have ha : ({ finalizeWorker hashes_per_share v with name := n } : WorkerData).accepted =
      v.accepted := (finalizeWorker_fields hashes_per_share v).1
  have hr : ({ finalizeWorker hashes_per_share v with name := n } : WorkerData).rejected =
      v.rejected := (finalizeWorker_fields hashes_per_share v).2.1
  have he : ({ finalizeWorker hashes_per_share v with name := n } : WorkerData).efficiency =
      (if v.accepted ≠ 0 ∨ v.rejected ≠ 0 then
        some (100 * (v.accepted / (v.accepted + v.rejected))) else none) :=
    (finalizeWorker_fields hashes_per_share v).2.2
  rw [ha, hr, he]
  constructor
  · rintro ⟨h1, h2⟩
    rw [if_neg (by simp [h1, h2])]
  · intro h
    rw [if_pos h, mul_div_assoc]

/-- Witness for C8: a worker with accepted 3 and rejected 1 reports
efficiency `100·3/(3+1) = 75`. -/
theorem collect_user_stats_efficiency_witness :
    ({ accepted := 3, rejected := 1, efficiency := some 75, name := str "w2" } :
        WorkerData).efficiency =
      some (100 *
        ({ accepted := 3, rejected := 1, efficiency := some 75, name := str "w2" } :
          WorkerData).accepted /
        (({ accepted := 3, rejected := 1, efficiency := some 75, name := str "w2" } :
            WorkerData).accepted +
          ({ accepted := 3, rejected := 1, efficiency := some 75, name := str "w2" } :
            WorkerData).rejected)) :=
  (collect_user_stats_efficiency none (fun _ => none) 0
    [⟨str "w1", 0, 0⟩, ⟨str "w2", 0, 3⟩] [⟨str "w2", 0, 1⟩] []
    { accepted := 3, rejected := 1, efficiency := some 75, name := str "w2" }
    (by decide)).2 (by decide)

/-- C10: every efficiency value `collect_user_stats` actually reports for
a worker with nonnegative accepted and rejected totals lies in the closed
interval `[0, 100]`. -/
theorem collect_user_stats_efficiency_bounds (hashes_per_share : Option ℚ)
    (monitor : Str → Option Str) (now : Int) (accepts rejects : List Rec)
    (online : List (Str × Str)) :
    ∀ w ∈ collect_user_stats hashes_per_share monitor now accepts rejects online,
      0 ≤ w.accepted → 0 ≤ w.rejected →
      ∀ e, w.efficiency = some e → 0 ≤ e ∧ e ≤ 100 := by
  intro w hw ha0 hr0 e he
  obtain ⟨n, v, rfl⟩ := collect_user_stats_mem hw
  rw [(finalizeWorker_fields hashes_per_share v).1] at ha0
  rw [(finalizeWorker_fields hashes_per_share v).2.1] at hr0
  rw [(finalizeWorker_fields hashes_per_share v).2.2] at he
  by_cases hc : v.accepted ≠ 0 ∨ v.rejected ≠ 0
  · rw [if_pos hc, Option.some.injEq] at he
    subst he
    have hpos : 0 < v.accepted + v.rejected := by
      rcases hc with h | h
      · have := lt_of_le_of_ne ha0 (Ne.symm h)
        linarith
      · have := lt_of_le_of_ne hr0 (Ne.symm h)
        linarith
    constructor
    · have := div_nonneg ha0 hpos.le
      linarith
    · have h1 : v.accepted / (v.accepted + v.rejected) ≤ 1 :=
        (div_le_one hpos).2 (by linarith)
      linarith
  · rw [if_neg hc] at he
    exact absurd he (by simp)

/-- Witness for C10: the reported efficiency 75 of a worker with accepted
3 and rejected 1 lies in `[0, 100]`. -/
theorem collect_user_stats_efficiency_bounds_witness :
    (0 : ℚ) ≤ 75 ∧ (75 : ℚ) ≤ 100 :=
  collect_user_stats_efficiency_bounds none (fun _ => none) 0
    [⟨str "w1", 0, 0⟩, ⟨str "w2", 0, 3⟩] [⟨str "w2", 0, 1⟩] []
    { accepted := 3, rejected := 1, efficiency := some 75, name := str "w2" }
    (by decide) (by decide) (by decide) 75 (by decide)

/-- C2: on every rejection path of `verify_message` — parse failure,
missing timestamp, expiry, site mismatch, oracle RPC or communication
failure, a false oracle verdict, validation failure, or persistence
failure (rollback) — the `UserSettings` state is returned unchanged; and
when the oracle verdict is `False` on a message passing the pre-oracle
checks, the raised exception is the invalid-signature
`CommandException`. -/
theorem verify_message_atomic (cfg : Config) (parse_time : Str → Option Int)
    (check_valid_currency : Str → Option Unit) (now : Int) (oracle : RpcResult)
    (update_raises : Bool) (address : Str) (message : Str) (db : SettingsDB) :
    (∀ e, (verify_message cfg parse_time check_valid_currency now oracle
        update_raises address message db).1 = some e →
      (verify_message cfg parse_time check_valid_currency now oracle
        update_raises address message db).2 = db) ∧
    (oracle = .ok false → exceptOk (preCheck cfg parse_time now message) = true →
      verify_message cfg parse_time check_valid_currency now oracle
        update_raises address message db = (some (.command invalid_sig_msg), db)) := by
  constructor
  · intro e he
    unfold verify_message at he ⊢
    cases hpc : preCheck cfg parse_time now message with
    | error e2 => simp [hpc]
    | ok ud =>
      simp only [hpc] at he ⊢
      cases oracle with
      | rpcError r => rfl
      | commFailure => rfl
      | ok res =>
        cases res
        · rfl
        · simp only at he ⊢
          cases hv : validate_message_vals check_valid_currency ud with
          | error e3 => simp [hv]
          | ok args =>
            obtain ⟨sa, da, dp, anon⟩ := args
            simp only [hv] at he ⊢
            cases update_raises
            · simp at he
            · rfl
  · intro ho hok
    subst ho
    unfold verify_message
    cases hpc : preCheck cfg parse_time now message with
    | error e => rw [hpc] at hok; exact absurd hok (by simp [exceptOk])
    | ok ud => simp [hpc]

/-- Witness for C2: a well-formed message whose oracle verdict is `False`
yields the invalid-signature exception and an unchanged (empty) settings
table. -/
theorem verify_message_atomic_witness :
    verify_message ⟨str "SiteName", none⟩ (fun _ => some 0) (fun _ => some ()) 0
      (.ok false) false (str "addr")
      (str "SETDONATE 0\tGenerated at 2014-01-01 00:00:00.000000 UTC\tOnly valid on SiteName")
      [] = (some (.command invalid_sig_msg), []) :=
  (verify_message_atomic ⟨str "SiteName", none⟩ (fun _ => some 0) (fun _ => some ()) 0
    (.ok false) false (str "addr")
    (str "SETDONATE 0\tGenerated at 2014-01-01 00:00:00.000000 UTC\tOnly valid on SiteName")
    []).2 rfl (by decide)

end Simplecoin
